import Mathlib

/-!
Shallow embedding of the "마음 성장 일기" journaling application:
`src/services/dataService` (src/unnamed/part_000),
`src/services/geminiService` (src/unnamed/part_001),
`src/views/StudentView.tsx` and `src/views/TeacherView.tsx`.

External effects are made explicit: the `localStorage`-backed stores become
function arguments and results, the generative AI provider becomes an oracle
whose per-call responses are parameters, and the React `useState` updates of
`ChatView.handleSendMessage` become a state-passing step function.

Machine-integer detail: `simpleHash` reproduces the JavaScript 32-bit signed
arithmetic (`hash = (hash << 5) - hash + char; hash |= 0`) over `Int` with an
explicit reduction into `[-2^31, 2^31)`.  Character codes are taken as Unicode
code points (`charCodeAt` agrees with this on the Basic Multilingual Plane).
-/

/-- Sender of a chat message (the `'user' | 'ai'` union in `types.ts`). -/
inductive Sender where
  | user
  | ai
deriving DecidableEq, Repr

/-- A chat message (`Message` in `types.ts`). -/
structure Message where
  sender : Sender
  text : String
deriving DecidableEq, Repr

/-- The user message built by `handleSendMessage` (`newUserMessage`). -/
def userMsg (t : String) : Message := { sender := Sender.user, text := t }

/-- The ai message built by `handleSendMessage` (`newAiMessage`). -/
def aiMsg (t : String) : Message := { sender := Sender.ai, text := t }

/-- An account record (`User` in `types.ts`). -/
structure User where
  name : String
  passwordHash : String
deriving DecidableEq, Repr

/-- The structured summary of a finished conversation (`FinalSummary` in `types.ts`). -/
structure FinalSummary where
  mood : String
  message : String
deriving DecidableEq, Repr

/-- A persisted conversation record (`Conversation` in `types.ts`). -/
structure Conversation where
  id : String
  timestamp : Int
  messages : List Message
  summary : FinalSummary
deriving DecidableEq, Repr

/-- The four mood-meter quadrants (`MoodMeterQuadrant` in `types.ts`). -/
inductive MoodMeterQuadrant where
  | YELLOW
  | RED
  | BLUE
  | GREEN
deriving DecidableEq, Repr

/-- A dashboard row (`StudentMood` in `types.ts`). -/
structure StudentMood where
  name : String
  mood : String
  quadrant : MoodMeterQuadrant
  timestamp : Int
deriving DecidableEq, Repr

/-- JavaScript `String.prototype.toLowerCase`, modelled character-wise (the
names this program lower-cases are ASCII-cased; other characters map to
themselves). -/
def jsToLower (s : String) : String :=
  String.mk (s.data.map Char.toLower)

/-- JavaScript `String.prototype.toUpperCase`, modelled character-wise. -/
def jsToUpper (s : String) : String :=
  String.mk (s.data.map Char.toUpper)

/-- JavaScript `String.prototype.trim`: strip leading and trailing
whitespace. -/
def jsTrim (s : String) : String :=
  String.mk ((s.data.dropWhile Char.isWhitespace).reverse.dropWhile Char.isWhitespace).reverse

/-- Reduction of an integer into the 32-bit signed range, the effect of the
JavaScript `| 0` coercion (ToInt32). -/
def toInt32 (n : Int) : Int :=
  (n + 2 ^ 31) % 2 ^ 32 - 2 ^ 31

/-- One loop iteration of `simpleHash` in dataService:
`hash = (hash << 5) - hash + char; hash |= 0`.  The shift operates on the
32-bit value (the accumulator is always in range, `<< 5` truncates to 32 bits),
the sum is exact in doubles and `|= 0` truncates again. -/
def simpleHashStep (hash : Int) (c : Nat) : Int :=
  toInt32 (toInt32 (hash * 32) - hash + c)

/-- `simpleHash` from dataService: fold the step over the character codes
starting from 0, then render the 32-bit signed result in decimal. -/
def simpleHash (s : String) : String :=
  toString (s.data.foldl (fun h c => simpleHashStep h c.toNat) 0)

/-- The duplicate-name error message thrown by `signupUser`. -/
def duplicateNameMsg : String := "이미 사용 중인 이름입니다."

/-- The invalid-credentials error message thrown by `loginUser`. -/
def invalidCredentialsMsg : String := "이름 또는 비밀번호가 올바르지 않습니다."

/-- `signupUser` from dataService.  The user store (the `users` key of
`localStorage`) is passed in and the updated store is returned alongside the
created account; a thrown `Error` becomes `Except.error`. -/
def signupUser (users : List User) (name password : String) : Except String (List User × User) :=
  if users.any (fun u => jsToLower u.name == jsToLower name) then
    Except.error duplicateNameMsg
  else
    Except.ok (users ++ [{ name := name, passwordHash := simpleHash password }],
               { name := name, passwordHash := simpleHash password })

/-- `loginUser` from dataService: case-insensitive lookup by name, then hash
comparison.  The returned account is also what the code places in the session
store (`sessionStorage.currentUser`). -/
def loginUser (users : List User) (name password : String) : Except String User :=
  match users.find? (fun u => jsToLower u.name == jsToLower name) with
  | none => Except.error invalidCredentialsMsg
  | some u =>
    if u.passwordHash = simpleHash password then Except.ok u
    else Except.error invalidCredentialsMsg

/-- `resetStudentPassword` from dataService: `findIndex` locates the first
account whose name equals the argument under exact (`===`) comparison and its
`passwordHash` is overwritten with `simpleHash '0000'`; when no account
matches, the store is unchanged.  Expressed as first-match replacement. -/
def resetStudentPassword : List User → String → List User
  | [], _ => []
  | u :: rest, name =>
    if u.name = name then { u with passwordHash := simpleHash "0000" } :: rest
    else u :: resetStudentPassword rest name

/-- The `conversations` key of `localStorage`: a record from account name to
ordered list of Conversation, modelled as an insertion-ordered association
list (JavaScript object keys preserve insertion order). -/
abbrev ConversationStore := List (String × List Conversation)

/-- `getConversations` from dataService (`allConvos[userName] || []`). -/
def getConversations (store : ConversationStore) (userName : String) : List Conversation :=
  match store.find? (fun p => p.1 == userName) with
  | some p => p.2
  | none => []

/-- `saveConversation` from dataService:
`allConvos[userName] = [...(allConvos[userName] || []), conversation]`.
An existing key is updated in place, a missing key is appended. -/
def saveConversation (store : ConversationStore) (userName : String) (c : Conversation) :
    ConversationStore :=
  if store.any (fun p => p.1 == userName) then
    store.map (fun p => if p.1 == userName then (p.1, p.2 ++ [c]) else p)
  else
    store ++ [(userName, [c])]

/-- The missing-API-key error message thrown by `getAI` in geminiService. -/
def apiKeyMissingMsg : String := "API 키가 설정되지 않았습니다. 먼저 API 키를 설정해주세요."

/-- Recognition of the four quadrant labels, the
`['YELLOW','RED','BLUE','GREEN'].includes(quadrant)` test together with the
cast in `getMoodMeterQuadrant`. -/
def toQuadrant (s : String) : Option MoodMeterQuadrant :=
  if s = "YELLOW" then some MoodMeterQuadrant.YELLOW
  else if s = "RED" then some MoodMeterQuadrant.RED
  else if s = "BLUE" then some MoodMeterQuadrant.BLUE
  else if s = "GREEN" then some MoodMeterQuadrant.GREEN
  else none

set_option linter.unusedVariables false in
/-- `getMoodMeterQuadrant` from geminiService.  `apiKey` is the stored Gemini
key read by `getAI` (thrown error when absent, before the try/catch);
`provider` is the outcome of the `generateContent` call for this mood's
prompt: `Except.error` for a rejected call, `Except.ok text` for
`response.text`.  The response is trimmed and upper-cased, unrecognized labels
and call failures fall back to `BLUE`. -/
def getMoodMeterQuadrant (apiKey : Option String) (provider : Except String String)
    (mood : String) : Except String MoodMeterQuadrant :=
  match apiKey with
  | none => Except.error apiKeyMissingMsg
  | some _ =>
    match provider with
    | Except.error _ => Except.ok MoodMeterQuadrant.BLUE
    | Except.ok text =>
      match toQuadrant (jsToUpper (jsTrim text)) with
      | some q => Except.ok q
      | none => Except.ok MoodMeterQuadrant.BLUE

/-- The AI Coach Gateway as seen by `ChatView`: the outcome of each
geminiService operation as a function of the history it is invoked with
(`Except.error` models a rejected promise). -/
structure Oracle where
  chatResponse : List Message → Except String String
  finalChatResponse : List Message → Except String String
  finalSummary : List Message → Except String FinalSummary

/-- `MAX_TURNS` from StudentView.tsx. -/
def MAX_TURNS : Nat := 5

/-- The greeting emitted by `ChatView`'s mount effect. -/
def greetingMessage (name : String) : Message :=
  { sender := Sender.ai,
    text := "안녕하세요, " ++ name ++ "님! 저는 따뜻한 마음 코치예요.\n오늘 어떤 일이 있었나요? 편하게 이야기해주세요." }

/-- The `useState` pieces of `ChatView` that `handleSendMessage` reads or
writes.  `isAITyping` is omitted: it is `true` only while a call is awaited
and reset in the `finally` block, so it is `false` at every state the step
function observes.  `userInput` is passed to the step as an argument. -/
structure ChatState where
  messages : List Message
  turnCount : Nat
  isConversationOver : Bool
  finalSummary : Option FinalSummary
  errorMsg : String
deriving DecidableEq, Repr

/-- The state of `ChatView` right after mount: the greeting is the only
message, zero completed turns. -/
def initialChatState (name : String) : ChatState :=
  { messages := [greetingMessage name], turnCount := 0, isConversationOver := false,
    finalSummary := none, errorMsg := "" }

/-- `handleSendMessage` from StudentView.tsx as a state-passing step.
`now` stands for `Date.now()`.  Faithful points: the guard returns unchanged
state; the user message is appended (and the error banner cleared) before the
gateway call; `getFinalChatResponse` is chosen exactly when the incremented
turn count equals `MAX_TURNS`; on gateway failure only `errorMsg` changes
beyond the already-appended user message; on the closing turn
`isConversationOver` is set before `getFinalSummary` is awaited, and the
conversation is persisted only after a successful summary. -/
def handleSendMessage (o : Oracle) (now : Int) (userName : String)
    (s : ChatState) (store : ConversationStore) (input : String) :
    ChatState × ConversationStore :=
  if jsTrim input = "" ∨ s.isConversationOver then (s, store)
  else
    let newHistory := s.messages ++ [userMsg input]
    let newTurnCount := s.turnCount + 1
    match (if newTurnCount = MAX_TURNS then o.finalChatResponse newHistory
           else o.chatResponse newHistory) with
    | Except.error e => ({ s with messages := newHistory, errorMsg := e }, store)
    | Except.ok text =>
      let finalHistory := newHistory ++ [aiMsg text]
      if MAX_TURNS ≤ newTurnCount then
        match o.finalSummary finalHistory with
        | Except.error e =>
          ({ s with messages := finalHistory, turnCount := newTurnCount,
                    isConversationOver := true, errorMsg := e }, store)
        | Except.ok summary =>
          ({ s with messages := finalHistory, turnCount := newTurnCount,
                    isConversationOver := true, finalSummary := some summary, errorMsg := "" },
           saveConversation store userName
             { id := "conv_" ++ toString now, timestamp := now,
               messages := finalHistory, summary := summary })
      else
        ({ s with messages := finalHistory, turnCount := newTurnCount, errorMsg := "" }, store)

/-- States and stores reachable by a `ChatView` session: the freshly mounted
chat over an empty conversation store, closed under `handleSendMessage` steps
with arbitrary oracle behaviour, clock values and inputs. -/
inductive Reachable (userName : String) : ChatState → ConversationStore → Prop where
  | init : Reachable userName (initialChatState userName) []
  | step (o : Oracle) (now : Int) (input : String) (s : ChatState)
      (store : ConversationStore) :
      Reachable userName s store →
      Reachable userName (handleSendMessage o now userName s store input).1
        (handleSendMessage o now userName s store input).2

/-- An oracle every call of which succeeds (no network or provider failure). -/
def Oracle.total (o : Oracle) : Prop :=
  (∀ h, ∃ r, o.chatResponse h = Except.ok r) ∧
  (∀ h, ∃ r, o.finalChatResponse h = Except.ok r) ∧
  (∀ h, ∃ fs, o.finalSummary h = Except.ok fs)

/-- Reachability restricted to failure-free runs: every step is taken with an
oracle all of whose calls succeed. -/
inductive ReachableOk (userName : String) : ChatState → ConversationStore → Prop where
  | init : ReachableOk userName (initialChatState userName) []
  | step (o : Oracle) (now : Int) (input : String) (s : ChatState)
      (store : ConversationStore) :
      o.total →
      ReachableOk userName s store →
      ReachableOk userName (handleSendMessage o now userName s store input).1
        (handleSendMessage o now userName s store input).2

/-- Number of messages from a given sender. -/
def countSender (x : Sender) (ms : List Message) : Nat :=
  ms.countP (fun m => decide (m.sender = x))

/-- The other sender. -/
def Sender.flip : Sender → Sender
  | Sender.user => Sender.ai
  | Sender.ai => Sender.user

/-- Strict user/ai alternation check: the head must come from `expected`, the
tail alternates starting from the other sender. -/
def alternates : Sender → List Message → Bool
  | _, [] => true
  | expected, m :: rest => decide (m.sender = expected) && alternates expected.flip rest

/-- The message list of a failure-free exchange after the greeting: one user
message followed by one ai message per completed turn. -/
def pairsToMsgs : List (String × String) → List Message
  | [] => []
  | (u, a) :: rest => userMsg u :: aiMsg a :: pairsToMsgs rest

/-- The `latestConv` selection of `MoodMeterDashboard.fetchMoods`:
`conversations.sort((a, b) => b.timestamp - a.timestamp)[0]`, i.e. the first
maximal-timestamp conversation (stable descending sort). -/
def latestConv (c : Conversation) (cs : List Conversation) : Conversation :=
  cs.foldl (fun best d => if best.timestamp < d.timestamp then d else best) c

/-- The `fetchMoods` effect of `MoodMeterDashboard`: every account with at
least one conversation contributes one `StudentMood` row built from its most
recent conversation; `classify` is the (already awaited) result of
`getMoodMeterQuadrant` on each mood text. -/
def fetchMoods (classify : String → MoodMeterQuadrant) (store : ConversationStore) :
    List StudentMood :=
  store.filterMap fun p =>
    match p.2 with
    | [] => none
    | c :: cs =>
      let latest := latestConv c cs
      some { name := p.1, mood := latest.summary.mood,
             quadrant := classify latest.summary.mood, timestamp := latest.timestamp }

/-- The `moodsByQuadrant` grouping of `MoodMeterDashboard`: the bucket of a
quadrant holds exactly the rows classified into it. -/
def moodsByQuadrant (moods : List StudentMood) (q : MoodMeterQuadrant) : List StudentMood :=
  moods.filter (fun m => m.quadrant == q)

/-- An oracle whose calls all succeed with fixed texts; used to exercise the
success paths on concrete inputs. -/
def okOracle : Oracle :=
  { chatResponse := fun _ => Except.ok "질문",
    finalChatResponse := fun _ => Except.ok "마무리",
    finalSummary := fun _ => Except.ok { mood := "기쁨", message := "격려" } }

/-- An oracle whose calls all fail; used to exercise the failure paths on
concrete inputs. -/
def failOracle : Oracle :=
  { chatResponse := fun _ => Except.error "네트워크 오류",
    finalChatResponse := fun _ => Except.error "네트워크 오류",
    finalSummary := fun _ => Except.error "네트워크 오류" }

/-- An oracle whose chat calls succeed but whose summarize call fails. -/
def sumFailOracle : Oracle :=
  { chatResponse := fun _ => Except.ok "질문",
    finalChatResponse := fun _ => Except.ok "마무리",
    finalSummary := fun _ => Except.error "요약 오류" }

/-- An oracle that fails exactly one continue call (the one invoked right
after the greeting, when the history has two messages) and succeeds
otherwise. -/
def onceFailOracle : Oracle :=
  { chatResponse := fun h => if h.length = 2 then Except.error "네트워크 오류" else Except.ok "질문",
    finalChatResponse := fun _ => Except.ok "마무리",
    finalSummary := fun _ => Except.ok { mood := "기쁨", message := "격려" } }

/-- A freshly mounted `ChatView` driven through a list of user inputs with a
fixed oracle and clock. -/
def runChat (o : Oracle) (userName : String) (inputs : List String) :
    ChatState × ConversationStore :=
  inputs.foldl (fun p inp => handleSendMessage o 7 userName p.1 p.2 inp)
    (initialChatState userName, [])

deriving instance DecidableEq for Except

/-- The per-state bookkeeping invariant of a `ChatView` session: the ai
message count tracks the turn count plus the greeting, at least one user
message per completed turn, the conversation is over exactly at `MAX_TURNS`,
and a summary exists only at `MAX_TURNS`. -/
def chatCountsInv (s : ChatState) : Prop :=
  countSender Sender.ai s.messages = s.turnCount + 1 ∧
  s.turnCount ≤ countSender Sender.user s.messages ∧
  (s.isConversationOver = true ↔ s.turnCount = MAX_TURNS) ∧
  s.turnCount ≤ MAX_TURNS ∧
  (s.finalSummary.isSome → s.turnCount = MAX_TURNS)

/-- A conversation with all `MAX_TURNS` turn-pairs exchanged: exactly the
greeting plus one ai reply per turn, and at least one user message per
turn. -/
def completeConv (c : Conversation) : Prop :=
  countSender Sender.ai c.messages = MAX_TURNS + 1 ∧
  MAX_TURNS ≤ countSender Sender.user c.messages

/-- A property holding of every conversation in every entry of the store. -/
def storeAll (P : Conversation → Prop) (store : ConversationStore) : Prop :=
  ∀ p ∈ store, ∀ c ∈ p.2, P c

/-- The message-shape invariant of a failure-free `ChatView` session: the
history is the greeting followed by exactly one user/ai pair per completed
turn. -/
def chatShapeInv (userName : String) (s : ChatState) : Prop :=
  (∃ ps : List (String × String),
    s.messages = greetingMessage userName :: pairsToMsgs ps ∧ ps.length = s.turnCount) ∧
  (s.isConversationOver = true ↔ s.turnCount = MAX_TURNS) ∧
  s.turnCount ≤ MAX_TURNS

/-- A conversation whose messages are the greeting followed by exactly
`MAX_TURNS` user/ai pairs. -/
def completeShape (userName : String) (c : Conversation) : Prop :=
  ∃ ps : List (String × String),
    c.messages = greetingMessage userName :: pairsToMsgs ps ∧ ps.length = MAX_TURNS

/-- Placeholder conversation, used only as the default of a `headD`. -/
def dummyConv : Conversation :=
  { id := "", timestamp := 0, messages := [], summary := { mood := "", message := "" } }

/-- The conversation persisted by a failure-free five-input run. -/
def okRunConv : Conversation :=
  (getConversations (runChat okOracle "A" ["a", "b", "c", "d", "e"]).2 "A").headD dummyConv

/-- A demo conversation for the two-student dashboard scenario. -/
def demoConv : Conversation :=
  { id := "c1", timestamp := 3, messages := [], summary := { mood := "화남", message := "m" } }

/-- A demo store in which only "student1" has a conversation. -/
def demoStore : ConversationStore := [("student1", [demoConv])]

/-- A classifier that puts every mood text in the RED quadrant. -/
def classifyRed : String → MoodMeterQuadrant := fun _ => MoodMeterQuadrant.RED

/-! ### Helper lemmas about the auth operations -/

theorem signup_of_dup (users : List User) (name password : String)
    (h : ∃ u ∈ users, jsToLower u.name = jsToLower name) :
    signupUser users name password = Except.error duplicateNameMsg := by
  have hany : users.any (fun u => jsToLower u.name == jsToLower name) = true := by
    rw [List.any_eq_true]
    obtain ⟨u, hu, he⟩ := h
    exact ⟨u, hu, by simp [he]⟩
  simp [signupUser, hany]

theorem signup_of_fresh (users : List User) (name password : String)
    (h : ∀ u ∈ users, jsToLower u.name ≠ jsToLower name) :
    signupUser users name password =
      Except.ok (users ++ [{ name := name, passwordHash := simpleHash password }],
                 { name := name, passwordHash := simpleHash password }) := by
  have hany : users.any (fun u => jsToLower u.name == jsToLower name) = false := by
    rw [List.any_eq_false]
    intro u hu
    simp [h u hu]
  simp [signupUser, hany]

theorem login_err_of_no_match (users : List User) (cand pw : String)
    (h : ∀ u ∈ users, jsToLower u.name ≠ jsToLower cand) :
    loginUser users cand pw = Except.error invalidCredentialsMsg := by
  have hnone : List.find? (fun u => jsToLower u.name == jsToLower cand) users = none := by
    rw [List.find?_eq_none]
    intro u hu
    simp [h u hu]
  simp [loginUser, hnone]

theorem login_err_of_bad_hash (users : List User) (cand pw : String) (u : User)
    (hfind : List.find? (fun v => jsToLower v.name == jsToLower cand) users = some u)
    (hne : u.passwordHash ≠ simpleHash pw) :
    loginUser users cand pw = Except.error invalidCredentialsMsg := by
  simp [loginUser, hfind, hne]

theorem login_after_signup (users : List User) (name password cand : String)
    (hfresh : ∀ v ∈ users, jsToLower v.name ≠ jsToLower name)
    (hcase : jsToLower cand = jsToLower name) :
    loginUser (users ++ [{ name := name, passwordHash := simpleHash password }]) cand password
      = Except.ok { name := name, passwordHash := simpleHash password } := by
  have hnone : List.find? (fun v => jsToLower v.name == jsToLower cand) users = none := by
    rw [List.find?_eq_none]
    intro v hv
    rw [hcase]
    simp [hfresh v hv]
  have hone : List.find? (fun v => jsToLower v.name == jsToLower cand)
      ([{ name := name, passwordHash := simpleHash password }] : List User) =
      some { name := name, passwordHash := simpleHash password } :=
    List.find?_cons_of_pos _ (by simp [hcase])
  simp [loginUser, List.find?_append, hnone, hone]

theorem reset_of_no_exact_match (users : List User) (name : String)
    (h : ∀ u ∈ users, u.name ≠ name) :
    resetStudentPassword users name = users := by
  induction users with
  | nil => rfl
  | cons u rest ih =>
    have hu : u.name ≠ name := h u (List.mem_cons_self u rest)
    simp only [resetStudentPassword, if_neg hu]
    rw [ih (fun v hv => h v (List.mem_cons_of_mem u hv))]

theorem reset_first_match (pre post : List User) (u : User) (name : String)
    (hpre : ∀ v ∈ pre, v.name ≠ name) (hu : u.name = name) :
    resetStudentPassword (pre ++ u :: post) name =
      pre ++ { u with passwordHash := simpleHash "0000" } :: post := by
  induction pre with
  | nil => simp [resetStudentPassword, hu]
  | cons v rest ih =>
    have hv : v.name ≠ name := hpre v (List.mem_cons_self v rest)
    simp only [List.cons_append, resetStudentPassword, if_neg hv, List.append_eq]
    rw [ih (fun w hw => hpre w (List.mem_cons_of_mem v hw))]

/-! ### Claim theorems: account management -/

/-- C7: `signupUser` fails with the duplicate-name error exactly when some
existing account's name equals the requested name case-insensitively, and
otherwise appends exactly one new account carrying the given name and the
derived password hash, returning that account. -/
theorem signupUser_correct (users : List User) (name password : String) :
    ((∃ u ∈ users, jsToLower u.name = jsToLower name) →
      signupUser users name password = Except.error duplicateNameMsg) ∧
    ((∀ u ∈ users, jsToLower u.name ≠ jsToLower name) →
      signupUser users name password =
        Except.ok (users ++ [{ name := name, passwordHash := simpleHash password }],
                   { name := name, passwordHash := simpleHash password })) :=
  ⟨signup_of_dup users name password, signup_of_fresh users name password⟩

/-- Witness for C7: re-signing up as "ALICE" over an existing "Alice" fails
with the duplicate-name error; a fresh signup appends the new account. -/
theorem signupUser_correct_witness :
    signupUser [{ name := "Alice", passwordHash := simpleHash "1234" }] "ALICE" "5678" =
      Except.error duplicateNameMsg ∧
    signupUser [] "Alice" "1234" =
      Except.ok ([{ name := "Alice", passwordHash := simpleHash "1234" }],
                 { name := "Alice", passwordHash := simpleHash "1234" }) :=
  ⟨(signupUser_correct [{ name := "Alice", passwordHash := simpleHash "1234" }] "ALICE" "5678").1
      ⟨{ name := "Alice", passwordHash := simpleHash "1234" }, by simp, by decide⟩,
   by
    have h := (signupUser_correct [] "Alice" "1234").2 (by simp)
    simpa using h⟩

/-- C8: after a successful signup the account can log in with any casing of
its name and the signup password, and the returned account carries the
original stored casing; login fails with the invalid-credentials error when
no account matches case-insensitively or when the password hash differs. -/
theorem signup_login_roundtrip (users : List User) (name password cand pw : String) (u : User) :
    ((∀ v ∈ users, jsToLower v.name ≠ jsToLower name) →
      jsToLower cand = jsToLower name →
      (signupUser users name password =
         Except.ok (users ++ [{ name := name, passwordHash := simpleHash password }],
                    { name := name, passwordHash := simpleHash password }) ∧
       loginUser (users ++ [{ name := name, passwordHash := simpleHash password }]) cand password
         = Except.ok { name := name, passwordHash := simpleHash password })) ∧
    ((∀ v ∈ users, jsToLower v.name ≠ jsToLower cand) →
      loginUser users cand pw = Except.error invalidCredentialsMsg) ∧
    (List.find? (fun v => jsToLower v.name == jsToLower cand) users = some u →
      u.passwordHash ≠ simpleHash pw →
      loginUser users cand pw = Except.error invalidCredentialsMsg) :=
  ⟨fun hfresh hcase =>
    ⟨signup_of_fresh users name password hfresh,
     login_after_signup users name password cand hfresh hcase⟩,
   login_err_of_no_match users cand pw,
   login_err_of_bad_hash users cand pw u⟩

/-- Witness for C8: "Bob" signs up with "1111" and logs in as "bOB"; logging
in with an unknown name fails; logging in as "bob" with the wrong password
fails. -/
theorem signup_login_roundtrip_witness :
    (signupUser [] "Bob" "1111" =
       Except.ok ([{ name := "Bob", passwordHash := simpleHash "1111" }],
                  { name := "Bob", passwordHash := simpleHash "1111" }) ∧
     loginUser [{ name := "Bob", passwordHash := simpleHash "1111" }] "bOB" "1111" =
       Except.ok { name := "Bob", passwordHash := simpleHash "1111" }) ∧
    loginUser [] "zoe" "1111" = Except.error invalidCredentialsMsg ∧
    loginUser [{ name := "Bob", passwordHash := simpleHash "1111" }] "bob" "2222" =
      Except.error invalidCredentialsMsg := by
  refine ⟨?_, ?_, ?_⟩
  · have h := (signup_login_roundtrip [] "Bob" "1111" "bOB" "x"
        { name := "Bob", passwordHash := simpleHash "1111" }).1 (by simp) (by decide)
    simpa using h
  · exact (signup_login_roundtrip [] "Bob" "1111" "zoe" "1111"
        { name := "Bob", passwordHash := simpleHash "1111" }).2.1 (by simp)
  · exact (signup_login_roundtrip [{ name := "Bob", passwordHash := simpleHash "1111" }]
        "Bob" "1111" "bob" "2222" { name := "Bob", passwordHash := simpleHash "1111" }).2.2
      (by decide) (by decide)

/-- C9: `resetStudentPassword` matches by exact, case-sensitive name equality
— unlike `signupUser` and `loginUser`, which compare case-insensitively — so
a name that differs only in casing leaves the store unchanged (while a signup
under that name would still report a duplicate); on a match, the first
matching account's hash becomes the hash of the fixed default "0000" and
every other account is unchanged. -/
theorem resetStudentPassword_exact (users pre post : List User) (u : User) (name pw : String) :
    ((∀ v ∈ users, v.name ≠ name) → resetStudentPassword users name = users) ∧
    ((∀ v ∈ users, v.name ≠ name) → (∃ v ∈ users, jsToLower v.name = jsToLower name) →
      (resetStudentPassword users name = users ∧
       signupUser users name pw = Except.error duplicateNameMsg)) ∧
    ((∀ v ∈ pre, v.name ≠ name) → u.name = name →
      resetStudentPassword (pre ++ u :: post) name =
        pre ++ { u with passwordHash := simpleHash "0000" } :: post) :=
  ⟨reset_of_no_exact_match users name,
   fun hne hdup =>
    ⟨reset_of_no_exact_match users name hne, signup_of_dup users name pw hdup⟩,
   fun hpre hu => reset_first_match pre post u name hpre hu⟩

/-- Witness for C9: resetting "ALICE" over a store holding only "Alice" is a
no-op even though signing up "ALICE" would be rejected as a duplicate, while
resetting "Alice" rewrites exactly that account's hash to the hash of
"0000". -/
theorem resetStudentPassword_exact_witness :
    resetStudentPassword [{ name := "Alice", passwordHash := simpleHash "1234" }] "ALICE" =
      [{ name := "Alice", passwordHash := simpleHash "1234" }] ∧
    signupUser [{ name := "Alice", passwordHash := simpleHash "1234" }] "ALICE" "9999" =
      Except.error duplicateNameMsg ∧
    resetStudentPassword
        [{ name := "Zed", passwordHash := simpleHash "1234" },
         { name := "Alice", passwordHash := simpleHash "1234" }] "Alice" =
      [{ name := "Zed", passwordHash := simpleHash "1234" },
       { name := "Alice", passwordHash := simpleHash "0000" }] := by
  refine ⟨?_, ?_, ?_⟩
  · exact (resetStudentPassword_exact
      [{ name := "Alice", passwordHash := simpleHash "1234" }] [] []
      { name := "Alice", passwordHash := simpleHash "1234" } "ALICE" "9999").1 (by decide)
  · exact ((resetStudentPassword_exact
      [{ name := "Alice", passwordHash := simpleHash "1234" }] [] []
      { name := "Alice", passwordHash := simpleHash "1234" } "ALICE" "9999").2.1 (by decide)
      ⟨{ name := "Alice", passwordHash := simpleHash "1234" }, by simp, by decide⟩).2
  · have h := (resetStudentPassword_exact []
      [{ name := "Zed", passwordHash := simpleHash "1234" }]
      [] { name := "Alice", passwordHash := simpleHash "1234" } "Alice" "9999").2.2
      (by decide) rfl
    simpa using h

/-! ### Claim theorems: mood classification -/

/-- C5 counterexample: with no API key stored, `getMoodMeterQuadrant` throws
the missing-key error instead of returning a quadrant — even when the
provider would have answered "RED" — so "never raises an exception" is false
as stated. -/
theorem classifyMood_missing_key_raises :
    getMoodMeterQuadrant none (Except.ok "RED") "화남" = Except.error apiKeyMissingMsg ∧
    getMoodMeterQuadrant none (Except.ok "RED") "화남" ≠ Except.ok MoodMeterQuadrant.RED ∧
    getMoodMeterQuadrant none (Except.ok "RED") "화남" ≠ Except.ok MoodMeterQuadrant.BLUE := by
  refine ⟨rfl, ?_, ?_⟩
  · intro h
    cases h
  · intro h
    cases h

/-- C5 amended: once an API key is configured, `getMoodMeterQuadrant` always
returns one of the four quadrants and never errors; a failed provider call or
a response that trims and upper-cases to anything outside
YELLOW/RED/BLUE/GREEN yields the default BLUE, and a recognized label yields
that label's quadrant. -/
theorem getMoodMeterQuadrant_total (key : String) (provider : Except String String)
    (mood : String) :
    ∃ q : MoodMeterQuadrant,
      getMoodMeterQuadrant (some key) provider mood = Except.ok q ∧
      (∀ e, provider = Except.error e → q = MoodMeterQuadrant.BLUE) ∧
      (∀ t, provider = Except.ok t → toQuadrant (jsToUpper (jsTrim t)) = none →
        q = MoodMeterQuadrant.BLUE) ∧
      (∀ t q0, provider = Except.ok t → toQuadrant (jsToUpper (jsTrim t)) = some q0 →
        q = q0) := by
  cases provider with
  | error e =>
    refine ⟨MoodMeterQuadrant.BLUE, rfl, fun _ _ => rfl, ?_, ?_⟩
    · intro t ht
      cases ht
    · intro t q0 ht
      cases ht
  | ok t =>
    cases hq : toQuadrant (jsToUpper (jsTrim t)) with
    | some q0 =>
      refine ⟨q0, ?_, ?_, ?_, ?_⟩
      · simp [getMoodMeterQuadrant, hq]
      · intro e he
        cases he
      · intro t2 ht2 hn
        cases ht2
        rw [hq] at hn
        cases hn
      · intro t2 q2 ht2 h2
        cases ht2
        rw [hq] at h2
        cases h2
        rfl
    | none =>
      refine ⟨MoodMeterQuadrant.BLUE, ?_, ?_, ?_, ?_⟩
      · simp [getMoodMeterQuadrant, hq]
      · intro e he
        cases he
      · intro t2 ht2 hn
        rfl
      · intro t2 q2 ht2 h2
        cases ht2
        rw [hq] at h2
        cases h2

/-- Witness for C5 amended: with a key configured, the response " red\n"
trims and upper-cases to the recognized label RED, and a failed provider call
yields BLUE. -/
theorem getMoodMeterQuadrant_total_witness :
    getMoodMeterQuadrant (some "k") (Except.ok " red\n") "기분" =
      Except.ok MoodMeterQuadrant.RED ∧
    getMoodMeterQuadrant (some "k") (Except.error "network") "기분" =
      Except.ok MoodMeterQuadrant.BLUE ∧
    getMoodMeterQuadrant (some "k") (Except.ok "모름") "기분" =
      Except.ok MoodMeterQuadrant.BLUE := by
  refine ⟨?_, ?_, ?_⟩
  · obtain ⟨q, hq, -, -, hlab⟩ := getMoodMeterQuadrant_total "k" (Except.ok " red\n") "기분"
    have : q = MoodMeterQuadrant.RED := hlab " red\n" MoodMeterQuadrant.RED rfl (by decide)
    rw [this] at hq
    exact hq
  · obtain ⟨q, hq, herr, -, -⟩ := getMoodMeterQuadrant_total "k" (Except.error "network") "기분"
    have : q = MoodMeterQuadrant.BLUE := herr "network" rfl
    rw [this] at hq
    exact hq
  · obtain ⟨q, hq, -, hnone, -⟩ := getMoodMeterQuadrant_total "k" (Except.ok "모름") "기분"
    have : q = MoodMeterQuadrant.BLUE := hnone "모름" rfl (by decide)
    rw [this] at hq
    exact hq

/-! ### Step equations for `handleSendMessage` -/

theorem hsm_noop (o : Oracle) (now : Int) (userName : String) (s : ChatState)
    (store : ConversationStore) (input : String)
    (h : jsTrim input = "" ∨ s.isConversationOver = true) :
    handleSendMessage o now userName s store input = (s, store) := by
  rw [handleSendMessage, if_pos h]

theorem hsm_err (o : Oracle) (now : Int) (userName : String) (s : ChatState)
    (store : ConversationStore) (input e : String)
    (hin : ¬ jsTrim input = "") (hov : s.isConversationOver = false)
    (hcall : (if s.turnCount + 1 = MAX_TURNS
              then o.finalChatResponse (s.messages ++ [userMsg input])
              else o.chatResponse (s.messages ++ [userMsg input])) = Except.error e) :
    handleSendMessage o now userName s store input =
      ({ s with messages := s.messages ++ [userMsg input], errorMsg := e }, store) := by
  have hg : ¬ (jsTrim input = "" ∨ s.isConversationOver = true) := by
    simp [hin, hov]
  rw [handleSendMessage, if_neg hg]
  simp only [hcall]

theorem hsm_ok_mid (o : Oracle) (now : Int) (userName : String) (s : ChatState)
    (store : ConversationStore) (input r : String)
    (hin : ¬ jsTrim input = "") (hov : s.isConversationOver = false)
    (hlt : s.turnCount + 1 < MAX_TURNS)
    (hcall : o.chatResponse (s.messages ++ [userMsg input]) = Except.ok r) :
    handleSendMessage o now userName s store input =
      ({ s with messages := s.messages ++ [userMsg input, aiMsg r],
                turnCount := s.turnCount + 1, errorMsg := "" }, store) := by
  have hg : ¬ (jsTrim input = "" ∨ s.isConversationOver = true) := by
    simp [hin, hov]
  have hne : ¬ s.turnCount + 1 = MAX_TURNS := Nat.ne_of_lt hlt
  have hnle : ¬ MAX_TURNS ≤ s.turnCount + 1 := Nat.not_le_of_lt hlt
  rw [handleSendMessage, if_neg hg]
  simp only [if_neg hne, hcall, if_neg hnle, List.append_assoc, List.cons_append,
    List.nil_append]

theorem hsm_final_sum_err (o : Oracle) (now : Int) (userName : String) (s : ChatState)
    (store : ConversationStore) (input r e : String)
    (hin : ¬ jsTrim input = "") (hov : s.isConversationOver = false)
    (heq : s.turnCount + 1 = MAX_TURNS)
    (hcall : o.finalChatResponse (s.messages ++ [userMsg input]) = Except.ok r)
    (hsum : o.finalSummary (s.messages ++ [userMsg input, aiMsg r]) = Except.error e) :
    handleSendMessage o now userName s store input =
      ({ s with messages := s.messages ++ [userMsg input, aiMsg r],
                turnCount := s.turnCount + 1, isConversationOver := true,
                errorMsg := e }, store) := by
  have hg : ¬ (jsTrim input = "" ∨ s.isConversationOver = true) := by
    simp [hin, hov]
  have hle : MAX_TURNS ≤ s.turnCount + 1 := Nat.le_of_eq heq.symm
  rw [handleSendMessage, if_neg hg]
  simp only [if_pos heq, hcall, if_pos hle, List.append_assoc, List.cons_append,
    List.nil_append, hsum]

theorem hsm_final_sum_ok (o : Oracle) (now : Int) (userName : String) (s : ChatState)
    (store : ConversationStore) (input r : String) (fs : FinalSummary)
    (hin : ¬ jsTrim input = "") (hov : s.isConversationOver = false)
    (heq : s.turnCount + 1 = MAX_TURNS)
    (hcall : o.finalChatResponse (s.messages ++ [userMsg input]) = Except.ok r)
    (hsum : o.finalSummary (s.messages ++ [userMsg input, aiMsg r]) = Except.ok fs) :
    handleSendMessage o now userName s store input =
      ({ s with messages := s.messages ++ [userMsg input, aiMsg r],
                turnCount := s.turnCount + 1, isConversationOver := true,
                finalSummary := some fs, errorMsg := "" },
       saveConversation store userName
         { id := "conv_" ++ toString now, timestamp := now,
           messages := s.messages ++ [userMsg input, aiMsg r], summary := fs }) := by
  have hg : ¬ (jsTrim input = "" ∨ s.isConversationOver = true) := by
    simp [hin, hov]
  have hle : MAX_TURNS ≤ s.turnCount + 1 := Nat.le_of_eq heq.symm
  rw [handleSendMessage, if_neg hg]
  simp only [if_pos heq, hcall, if_pos hle, List.append_assoc, List.cons_append,
    List.nil_append, hsum]

/-! ### Claim theorems: the conversation step -/

/-- C1: on a user input in an in-progress conversation the user message is
appended and then: while the incremented turn count stays below `MAX_TURNS`
the continue operation (`getChatResponse`) is invoked on the full history
including the new user message and its successful reply fully determines the
next state — AI reply appended, turn count incremented, store untouched;
when the incremented turn count reaches exactly `MAX_TURNS` the close
operation (`getFinalChatResponse`) is invoked instead and on success its
reply is appended and the turn count becomes `t + 1`. -/
theorem handleSendMessage_turn_dispatch (o : Oracle) (now : Int) (userName : String)
    (s : ChatState) (store : ConversationStore) (input r : String)
    (hin : jsTrim input ≠ "") (hov : s.isConversationOver = false) :
    (s.turnCount + 1 < MAX_TURNS →
      o.chatResponse (s.messages ++ [userMsg input]) = Except.ok r →
      handleSendMessage o now userName s store input =
        ({ s with messages := s.messages ++ [userMsg input, aiMsg r],
                  turnCount := s.turnCount + 1, errorMsg := "" }, store)) ∧
    (s.turnCount + 1 = MAX_TURNS →
      o.finalChatResponse (s.messages ++ [userMsg input]) = Except.ok r →
      ((handleSendMessage o now userName s store input).1.messages =
         s.messages ++ [userMsg input, aiMsg r] ∧
       (handleSendMessage o now userName s store input).1.turnCount = s.turnCount + 1)) := by
  constructor
  · intro hlt hcall
    exact hsm_ok_mid o now userName s store input r hin hov hlt hcall
  · intro heq hcall
    cases hsum : o.finalSummary (s.messages ++ [userMsg input, aiMsg r]) with
    | error e =>
      rw [hsm_final_sum_err o now userName s store input r e hin hov heq hcall hsum]
      exact ⟨rfl, rfl⟩
    | ok fs =>
      rw [hsm_final_sum_ok o now userName s store input r fs hin hov heq hcall hsum]
      exact ⟨rfl, rfl⟩

/-- Witness for C1: with a turn count of 0 the continue reply "질문" is
appended; with a turn count of 4 the close reply "마무리" is appended and the
turn count becomes 5. -/
theorem handleSendMessage_turn_dispatch_witness :
    (handleSendMessage okOracle 0 "A" (initialChatState "A") [] "안녕" =
      ({ initialChatState "A" with
           messages := (initialChatState "A").messages ++ [userMsg "안녕", aiMsg "질문"],
           turnCount := 1, errorMsg := "" }, [])) ∧
    ((handleSendMessage okOracle 0 "A" (runChat okOracle "A" ["a", "b", "c", "d"]).1
        (runChat okOracle "A" ["a", "b", "c", "d"]).2 "안녕").1.messages =
      (runChat okOracle "A" ["a", "b", "c", "d"]).1.messages ++ [userMsg "안녕", aiMsg "마무리"] ∧
     (handleSendMessage okOracle 0 "A" (runChat okOracle "A" ["a", "b", "c", "d"]).1
        (runChat okOracle "A" ["a", "b", "c", "d"]).2 "안녕").1.turnCount = 5) := by
  constructor
  · exact (handleSendMessage_turn_dispatch okOracle 0 "A" (initialChatState "A") [] "안녕" "질문"
      (by decide) (by decide)).1 (by decide) rfl
  · exact (handleSendMessage_turn_dispatch okOracle 0 "A"
      (runChat okOracle "A" ["a", "b", "c", "d"]).1
      (runChat okOracle "A" ["a", "b", "c", "d"]).2 "안녕" "마무리"
      (by decide) (by decide)).2 (by decide) rfl

/-- C2 counterexample: when the gateway call for the turn fails the message
history IS modified — the user message appended before the call stays in the
history — so the state is not "unchanged from before the input" as claimed
(the turn count, however, is indeed not advanced). -/
theorem sendMessage_failure_modifies_history :
    (handleSendMessage failOracle 0 "A" (initialChatState "A") [] "안녕").1.messages =
      (initialChatState "A").messages ++ [userMsg "안녕"] ∧
    (handleSendMessage failOracle 0 "A" (initialChatState "A") [] "안녕").1.messages ≠
      (initialChatState "A").messages ∧
    (handleSendMessage failOracle 0 "A" (initialChatState "A") [] "안녕").1.turnCount =
      (initialChatState "A").turnCount := by
  refine ⟨by decide, by decide, by decide⟩

/-- C2 amended: if the gateway call for the turn fails, the turn count and
the store are unchanged — the caller may send again for the same turn — but
the history is not unchanged: it keeps the user message appended before the
call, and the error message is surfaced. -/
theorem handleSendMessage_failure_state (o : Oracle) (now : Int) (userName : String)
    (s : ChatState) (store : ConversationStore) (input e : String)
    (hin : jsTrim input ≠ "") (hov : s.isConversationOver = false) :
    (s.turnCount + 1 = MAX_TURNS →
      o.finalChatResponse (s.messages ++ [userMsg input]) = Except.error e →
      handleSendMessage o now userName s store input =
        ({ s with messages := s.messages ++ [userMsg input], errorMsg := e }, store)) ∧
    (s.turnCount + 1 ≠ MAX_TURNS →
      o.chatResponse (s.messages ++ [userMsg input]) = Except.error e →
      handleSendMessage o now userName s store input =
        ({ s with messages := s.messages ++ [userMsg input], errorMsg := e }, store)) := by
  constructor
  · intro heq hcall
    exact hsm_err o now userName s store input e hin hov (by rw [if_pos heq, hcall])
  · intro hne hcall
    exact hsm_err o now userName s store input e hin hov (by rw [if_neg hne, hcall])

/-- Witness for C2 amended: a failing continue call on the first turn leaves
the turn count at 0 and the store empty and appends only the user message. -/
theorem handleSendMessage_failure_state_witness :
    handleSendMessage failOracle 0 "A" (initialChatState "A") [] "안녕" =
      ({ initialChatState "A" with
           messages := (initialChatState "A").messages ++ [userMsg "안녕"],
           errorMsg := "네트워크 오류" }, []) :=
  (handleSendMessage_failure_state failOracle 0 "A" (initialChatState "A") [] "안녕"
    "네트워크 오류" (by decide) (by decide)).2 (by decide) rfl

/-- C3 counterexample: drive a fresh chat through five inputs with an oracle
whose summarize call fails.  The summarize error is surfaced, but
`isConversationOver` is already `true`, so a sixth input is a no-op: the
summarize step cannot be triggered again by sending another input, `Complete`
is never reached and nothing is ever persisted. -/
theorem summary_failure_not_retryable :
    (runChat sumFailOracle "A" ["1", "2", "3", "4", "5"]).1.errorMsg = "요약 오류" ∧
    (runChat sumFailOracle "A" ["1", "2", "3", "4", "5"]).1.isConversationOver = true ∧
    (runChat sumFailOracle "A" ["1", "2", "3", "4", "5"]).1.finalSummary = none ∧
    runChat sumFailOracle "A" ["1", "2", "3", "4", "5", "다시"] =
      runChat sumFailOracle "A" ["1", "2", "3", "4", "5"] ∧
    (runChat sumFailOracle "A" ["1", "2", "3", "4", "5", "다시"]).2 = [] := by
  refine ⟨by decide, by decide, by decide, by decide, by decide⟩

/-- C3 amended: if the summarize call fails on the closing turn, the error is
surfaced in the resulting state and nothing is persisted, but the
conversation is NOT recoverable: the conversation is already marked over, so
every subsequent input (with any oracle) leaves the state and the store
exactly as they are, and the conversation store never receives the
conversation. -/
theorem handleSendMessage_summary_failure (o : Oracle) (now : Int) (userName : String)
    (s : ChatState) (store : ConversationStore) (input r e : String)
    (hin : jsTrim input ≠ "") (hov : s.isConversationOver = false)
    (heq : s.turnCount + 1 = MAX_TURNS)
    (hcall : o.finalChatResponse (s.messages ++ [userMsg input]) = Except.ok r)
    (hsum : o.finalSummary (s.messages ++ [userMsg input, aiMsg r]) = Except.error e) :
    (handleSendMessage o now userName s store input =
      ({ s with messages := s.messages ++ [userMsg input, aiMsg r],
                turnCount := s.turnCount + 1, isConversationOver := true,
                errorMsg := e }, store)) ∧
    (∀ (o2 : Oracle) (now2 : Int) (input2 : String),
      handleSendMessage o2 now2 userName
        { s with messages := s.messages ++ [userMsg input, aiMsg r],
                 turnCount := s.turnCount + 1, isConversationOver := true,
                 errorMsg := e }
        store input2 =
      ({ s with messages := s.messages ++ [userMsg input, aiMsg r],
                turnCount := s.turnCount + 1, isConversationOver := true,
                errorMsg := e }, store)) := by
  constructor
  · exact hsm_final_sum_err o now userName s store input r e hin hov heq hcall hsum
  · intro o2 now2 input2
    exact hsm_noop o2 now2 userName _ store input2 (Or.inr rfl)

/-- Witness for C3 amended: the concrete five-turn run with a failing
summarize call ends in the surfaced error state, and a further "다시" input
with the all-success oracle changes nothing. -/
theorem handleSendMessage_summary_failure_witness :
    (handleSendMessage sumFailOracle 0 "A" (runChat sumFailOracle "A" ["1", "2", "3", "4"]).1
        (runChat sumFailOracle "A" ["1", "2", "3", "4"]).2 "5" =
      ({ (runChat sumFailOracle "A" ["1", "2", "3", "4"]).1 with
           messages := (runChat sumFailOracle "A" ["1", "2", "3", "4"]).1.messages ++
             [userMsg "5", aiMsg "마무리"],
           turnCount := 5, isConversationOver := true, errorMsg := "요약 오류" },
       (runChat sumFailOracle "A" ["1", "2", "3", "4"]).2)) ∧
    handleSendMessage okOracle 9 "A"
        { (runChat sumFailOracle "A" ["1", "2", "3", "4"]).1 with
            messages := (runChat sumFailOracle "A" ["1", "2", "3", "4"]).1.messages ++
              [userMsg "5", aiMsg "마무리"],
            turnCount := 5, isConversationOver := true, errorMsg := "요약 오류" }
        (runChat sumFailOracle "A" ["1", "2", "3", "4"]).2 "다시" =
      ({ (runChat sumFailOracle "A" ["1", "2", "3", "4"]).1 with
           messages := (runChat sumFailOracle "A" ["1", "2", "3", "4"]).1.messages ++
             [userMsg "5", aiMsg "마무리"],
           turnCount := 5, isConversationOver := true, errorMsg := "요약 오류" },
       (runChat sumFailOracle "A" ["1", "2", "3", "4"]).2) := by
  have h := handleSendMessage_summary_failure sumFailOracle 0 "A"
    (runChat sumFailOracle "A" ["1", "2", "3", "4"]).1
    (runChat sumFailOracle "A" ["1", "2", "3", "4"]).2 "5" "마무리" "요약 오류"
    (by decide) (by decide) (by decide) rfl rfl
  exact ⟨h.1, h.2 okOracle 9 "다시"⟩

/-! ### Counting and shape lemmas -/

theorem countSender_append (x : Sender) (l1 l2 : List Message) :
    countSender x (l1 ++ l2) = countSender x l1 + countSender x l2 :=
  List.countP_append _ l1 l2

theorem countSender_userMsg (t : String) :
    countSender Sender.user [userMsg t] = 1 ∧ countSender Sender.ai [userMsg t] = 0 := by
  constructor <;> simp [countSender, userMsg]

theorem countSender_aiMsg (t : String) :
    countSender Sender.user [aiMsg t] = 0 ∧ countSender Sender.ai [aiMsg t] = 1 := by
  constructor <;> simp [countSender, aiMsg]

theorem countSender_user_pair (u a : String) :
    countSender Sender.user [userMsg u, aiMsg a] = 1 ∧
    countSender Sender.ai [userMsg u, aiMsg a] = 1 := by
  constructor <;> simp [countSender, userMsg, aiMsg]

theorem storeAll_save (P : Conversation → Prop) (store : ConversationStore)
    (userName : String) (c : Conversation)
    (hst : storeAll P store) (hc : P c) :
    storeAll P (saveConversation store userName c) := by
  intro p hp c2 hc2
  unfold saveConversation at hp
  by_cases hany : store.any (fun q => q.1 == userName)
  · rw [if_pos hany] at hp
    obtain ⟨q, hq, hpq⟩ := List.mem_map.mp hp
    by_cases hqn : q.1 == userName
    · rw [if_pos hqn] at hpq
      rw [← hpq] at hc2
      rcases List.mem_append.mp hc2 with h2 | h2
      · exact hst q hq c2 h2
      · rw [List.mem_singleton.mp h2]
        exact hc
    · rw [if_neg hqn] at hpq
      rw [← hpq] at hc2
      exact hst q hq c2 hc2
  · rw [if_neg hany] at hp
    rcases List.mem_append.mp hp with h2 | h2
    · exact hst p h2 c2 hc2
    · rw [List.mem_singleton.mp h2] at hc2
      rw [List.mem_singleton.mp hc2]
      exact hc

theorem pairsToMsgs_append_single (ps : List (String × String)) (u a : String) :
    pairsToMsgs (ps ++ [(u, a)]) = pairsToMsgs ps ++ [userMsg u, aiMsg a] := by
  induction ps with
  | nil => rfl
  | cons p rest ih =>
    obtain ⟨x, y⟩ := p
    simp only [List.cons_append, pairsToMsgs, List.append_eq, ih]

theorem pairsToMsgs_length (ps : List (String × String)) :
    (pairsToMsgs ps).length = 2 * ps.length := by
  induction ps with
  | nil => rfl
  | cons p rest ih =>
    obtain ⟨x, y⟩ := p
    simp only [pairsToMsgs, List.length_cons, ih]
    omega

theorem alternates_pairsToMsgs (ps : List (String × String)) :
    alternates Sender.user (pairsToMsgs ps) = true := by
  induction ps with
  | nil => rfl
  | cons p rest ih =>
    obtain ⟨x, y⟩ := p
    simp only [pairsToMsgs, alternates, Sender.flip, userMsg, aiMsg, ih]
    simp

theorem countSender_pairsToMsgs (ps : List (String × String)) :
    countSender Sender.user (pairsToMsgs ps) = ps.length ∧
    countSender Sender.ai (pairsToMsgs ps) = ps.length := by
  induction ps with
  | nil => exact ⟨rfl, rfl⟩
  | cons p rest ih =>
    obtain ⟨x, y⟩ := p
    constructor <;>
      simp [pairsToMsgs, countSender, List.countP_cons, userMsg, aiMsg, ih.1, ih.2,
        Nat.add_comm] <;> simp [countSender] at ih <;> omega

/-! ### Invariant preservation -/

theorem chatCountsInv_step (o : Oracle) (now : Int) (userName : String)
    (s : ChatState) (store : ConversationStore) (input : String)
    (hs : chatCountsInv s) (hst : storeAll completeConv store) :
    chatCountsInv (handleSendMessage o now userName s store input).1 ∧
    storeAll completeConv (handleSendMessage o now userName s store input).2 := by
  by_cases hg : jsTrim input = "" ∨ s.isConversationOver = true
  · rw [hsm_noop o now userName s store input hg]
    exact ⟨hs, hst⟩
  · push_neg at hg
    obtain ⟨hin, hov'⟩ := hg
    have hov : s.isConversationOver = false := Bool.eq_false_iff.mpr hov'
    obtain ⟨hai, huser, hover, hle, hfs⟩ := hs
    have hne5 : s.turnCount ≠ MAX_TURNS := fun h => hov' (hover.mpr h)
    have hlt5 : s.turnCount < MAX_TURNS := Nat.lt_of_le_of_ne hle hne5
    by_cases heq : s.turnCount + 1 = MAX_TURNS
    · cases hcall : o.finalChatResponse (s.messages ++ [userMsg input]) with
      | error e =>
        rw [hsm_err o now userName s store input e hin hov (by rw [if_pos heq, hcall])]
        refine ⟨⟨?_, ?_, ?_, hle, hfs⟩, hst⟩
        · rw [countSender_append, (countSender_userMsg input).2]
          exact hai
        · rw [countSender_append]
          exact Nat.le_add_right_of_le huser
        · exact hover
      | ok r =>
        cases hsum : o.finalSummary (s.messages ++ [userMsg input, aiMsg r]) with
        | error e =>
          rw [hsm_final_sum_err o now userName s store input r e hin hov heq hcall hsum]
          refine ⟨⟨?_, ?_, ?_, Nat.le_of_eq heq, fun _ => heq⟩, hst⟩
          · show countSender Sender.ai (s.messages ++ [userMsg input, aiMsg r])
                = s.turnCount + 1 + 1
            rw [countSender_append, (countSender_user_pair input r).2, hai]
          · show s.turnCount + 1
                ≤ countSender Sender.user (s.messages ++ [userMsg input, aiMsg r])
            rw [countSender_append, (countSender_user_pair input r).1]
            omega
          · simp [heq]
        | ok fs =>
          rw [hsm_final_sum_ok o now userName s store input r fs hin hov heq hcall hsum]
          refine ⟨⟨?_, ?_, ?_, Nat.le_of_eq heq, fun _ => heq⟩, ?_⟩
          · show countSender Sender.ai (s.messages ++ [userMsg input, aiMsg r])
                = s.turnCount + 1 + 1
            rw [countSender_append, (countSender_user_pair input r).2, hai]
          · show s.turnCount + 1
                ≤ countSender Sender.user (s.messages ++ [userMsg input, aiMsg r])
            rw [countSender_append, (countSender_user_pair input r).1]
            omega
          · simp [heq]
          · refine storeAll_save completeConv store userName _ hst ?_
            constructor
            · show countSender Sender.ai (s.messages ++ [userMsg input, aiMsg r]) = MAX_TURNS + 1
              rw [countSender_append, (countSender_user_pair input r).2, hai]
              omega
            · show MAX_TURNS ≤ countSender Sender.user (s.messages ++ [userMsg input, aiMsg r])
              rw [countSender_append, (countSender_user_pair input r).1]
              omega
    · have hlt : s.turnCount + 1 < MAX_TURNS := Nat.lt_of_le_of_ne (Nat.succ_le_of_lt hlt5) heq
      cases hcall : o.chatResponse (s.messages ++ [userMsg input]) with
      | error e =>
        rw [hsm_err o now userName s store input e hin hov (by rw [if_neg heq, hcall])]
        refine ⟨⟨?_, ?_, ?_, hle, hfs⟩, hst⟩
        · rw [countSender_append, (countSender_userMsg input).2]
          exact hai
        · rw [countSender_append]
          exact Nat.le_add_right_of_le huser
        · exact hover
      | ok r =>
        rw [hsm_ok_mid o now userName s store input r hin hov hlt hcall]
        refine ⟨⟨?_, ?_, ?_, Nat.le_of_lt hlt, ?_⟩, hst⟩
        · show countSender Sender.ai (s.messages ++ [userMsg input, aiMsg r])
              = s.turnCount + 1 + 1
          rw [countSender_append, (countSender_user_pair input r).2, hai]
        · show s.turnCount + 1
              ≤ countSender Sender.user (s.messages ++ [userMsg input, aiMsg r])
          rw [countSender_append, (countSender_user_pair input r).1]
          omega
        · simp only [hov]
          constructor
          · intro h
            cases h
          · intro h
            exact absurd h (Nat.ne_of_lt hlt)
        · intro h
          exact absurd (hfs h) hne5

theorem reachable_inv (userName : String) (s : ChatState) (store : ConversationStore)
    (h : Reachable userName s store) :
    chatCountsInv s ∧ storeAll completeConv store := by
  induction h with
  | init =>
    constructor
    · refine ⟨?_, ?_, ?_, ?_, ?_⟩
      · simp [initialChatState, countSender, greetingMessage]
      · simp [initialChatState, countSender, greetingMessage]
      · simp [initialChatState, MAX_TURNS]
      · simp [initialChatState, MAX_TURNS]
      · simp [initialChatState]
    · intro p hp
      cases hp
  | step o now input s2 store2 _ ih =>
    exact chatCountsInv_step o now userName s2 store2 input ih.1 ih.2

theorem reachable_foldl (o : Oracle) (userName : String) (inputs : List String) :
    ∀ p : ChatState × ConversationStore, Reachable userName p.1 p.2 →
      Reachable userName
        (inputs.foldl (fun q inp => handleSendMessage o 7 userName q.1 q.2 inp) p).1
        (inputs.foldl (fun q inp => handleSendMessage o 7 userName q.1 q.2 inp) p).2 := by
  induction inputs with
  | nil =>
    intro p h
    simpa using h
  | cons a rest ih =>
    intro p h
    simp only [List.foldl_cons]
    exact ih (handleSendMessage o 7 userName p.1 p.2 a) (Reachable.step o 7 a p.1 p.2 h)

theorem runChat_reachable (o : Oracle) (userName : String) (inputs : List String) :
    Reachable userName (runChat o userName inputs).1 (runChat o userName inputs).2 := by
  unfold runChat
  exact reachable_foldl o userName inputs (initialChatState userName, []) Reachable.init

/-- C4: in every reachable session state over an initially empty store, every
persisted conversation carries all `MAX_TURNS = 5` exchanged turn-pairs (five
user messages at least, and exactly the greeting plus five ai replies), the
conversation-over flag holds exactly when the turn count equals `MAX_TURNS`,
and a summary — the `Complete` outcome whose production is what triggers
persistence — exists only when the turn count equals `MAX_TURNS`; hence no
in-flight conversation abandoned earlier is ever written to the store. -/
theorem persisted_only_complete (userName : String) (s : ChatState)
    (store : ConversationStore) (h : Reachable userName s store) :
    (∀ p ∈ store, ∀ c ∈ p.2,
      countSender Sender.ai c.messages = MAX_TURNS + 1 ∧
      MAX_TURNS ≤ countSender Sender.user c.messages) ∧
    (s.isConversationOver = true ↔ s.turnCount = MAX_TURNS) ∧
    (s.finalSummary.isSome → s.turnCount = MAX_TURNS) := by
  obtain ⟨⟨hai, huser, hover, hle, hfs⟩, hst⟩ := reachable_inv userName s store h
  exact ⟨hst, hover, hfs⟩

/-- Witness for C4: after the failure-free five-input run the store holds the
single complete conversation (six ai messages, five user messages) and the
state is over at turn count 5 with a summary present. -/
theorem persisted_only_complete_witness :
    (countSender Sender.ai okRunConv.messages = MAX_TURNS + 1 ∧
     MAX_TURNS ≤ countSender Sender.user okRunConv.messages) ∧
    ((runChat okOracle "A" ["a", "b", "c", "d", "e"]).1.isConversationOver = true ↔
     (runChat okOracle "A" ["a", "b", "c", "d", "e"]).1.turnCount = MAX_TURNS) ∧
    (runChat okOracle "A" ["a", "b", "c", "d", "e"]).1.turnCount = MAX_TURNS := by
  have h := persisted_only_complete "A" (runChat okOracle "A" ["a", "b", "c", "d", "e"]).1
    (runChat okOracle "A" ["a", "b", "c", "d", "e"]).2
    (runChat_reachable okOracle "A" ["a", "b", "c", "d", "e"])
  refine ⟨?_, h.2.1, h.2.2 (by decide)⟩
  exact h.1 ("A", getConversations (runChat okOracle "A" ["a", "b", "c", "d", "e"]).2 "A")
    (by decide) okRunConv (by decide)

theorem countSender_greeting (userName : String) :
    countSender Sender.user [greetingMessage userName] = 0 ∧
    countSender Sender.ai [greetingMessage userName] = 1 := by
  constructor <;> simp [countSender, greetingMessage]


theorem shape_extend (userName : String) (s : ChatState) (ps : List (String × String))
    (input r : String) (hmsgs : s.messages = greetingMessage userName :: pairsToMsgs ps) :
    s.messages ++ [userMsg input, aiMsg r] =
      greetingMessage userName :: pairsToMsgs (ps ++ [(input, r)]) := by
  rw [hmsgs, pairsToMsgs_append_single, List.cons_append]

theorem chatShapeInv_step (o : Oracle) (now : Int) (userName : String)
    (s : ChatState) (store : ConversationStore) (input : String) (ht : o.total)
    (hs : chatShapeInv userName s) (hst : storeAll (completeShape userName) store) :
    chatShapeInv userName (handleSendMessage o now userName s store input).1 ∧
    storeAll (completeShape userName) (handleSendMessage o now userName s store input).2 := by
  by_cases hg : jsTrim input = "" ∨ s.isConversationOver = true
  · rw [hsm_noop o now userName s store input hg]
    exact ⟨hs, hst⟩
  · push_neg at hg
    obtain ⟨hin, hov'⟩ := hg
    have hov : s.isConversationOver = false := Bool.eq_false_iff.mpr hov'
    obtain ⟨⟨ps, hmsgs, hlen⟩, hover, hle⟩ := hs
    have hne5 : s.turnCount ≠ MAX_TURNS := fun h => hov' (hover.mpr h)
    have hlt5 : s.turnCount < MAX_TURNS := Nat.lt_of_le_of_ne hle hne5
    by_cases heq : s.turnCount + 1 = MAX_TURNS
    · obtain ⟨r, hcall⟩ := ht.2.1 (s.messages ++ [userMsg input])
      obtain ⟨fs, hsum⟩ := ht.2.2 (s.messages ++ [userMsg input, aiMsg r])
      rw [hsm_final_sum_ok o now userName s store input r fs hin hov heq hcall hsum]
      refine ⟨⟨⟨ps ++ [(input, r)], ?_, ?_⟩, ?_, Nat.le_of_eq heq⟩, ?_⟩
      · exact shape_extend userName s ps input r hmsgs
      · rw [List.length_append, hlen]
        rfl
      · simp [heq]
      · refine storeAll_save (completeShape userName) store userName _ hst ?_
        refine ⟨ps ++ [(input, r)], ?_, ?_⟩
        · exact shape_extend userName s ps input r hmsgs
        · rw [List.length_append, hlen]
          simpa using heq
    · obtain ⟨r, hcall⟩ := ht.1 (s.messages ++ [userMsg input])
      have hlt : s.turnCount + 1 < MAX_TURNS :=
        Nat.lt_of_le_of_ne (Nat.succ_le_of_lt hlt5) heq
      rw [hsm_ok_mid o now userName s store input r hin hov hlt hcall]
      refine ⟨⟨⟨ps ++ [(input, r)], ?_, ?_⟩, ?_, Nat.le_of_lt hlt⟩, hst⟩
      · exact shape_extend userName s ps input r hmsgs
      · rw [List.length_append, hlen]
        rfl
      · simp only [hov]
        constructor
        · intro h
          cases h
        · intro h
          exact absurd h (Nat.ne_of_lt hlt)

theorem reachableOk_inv (userName : String) (s : ChatState) (store : ConversationStore)
    (h : ReachableOk userName s store) :
    chatShapeInv userName s ∧ storeAll (completeShape userName) store := by
  induction h with
  | init =>
    constructor
    · refine ⟨⟨[], rfl, rfl⟩, ?_, ?_⟩
      · simp [initialChatState, MAX_TURNS]
      · simp [initialChatState, MAX_TURNS]
    · intro p hp
      cases hp
  | step o now input s2 store2 ht _ ih =>
    exact chatShapeInv_step o now userName s2 store2 input ht ih.1 ih.2

theorem okOracle_total : okOracle.total :=
  ⟨fun _ => ⟨"질문", rfl⟩, fun _ => ⟨"마무리", rfl⟩,
   fun _ => ⟨{ mood := "기쁨", message := "격려" }, rfl⟩⟩

theorem reachableOk_foldl (o : Oracle) (ht : o.total) (userName : String)
    (inputs : List String) :
    ∀ p : ChatState × ConversationStore, ReachableOk userName p.1 p.2 →
      ReachableOk userName
        (inputs.foldl (fun q inp => handleSendMessage o 7 userName q.1 q.2 inp) p).1
        (inputs.foldl (fun q inp => handleSendMessage o 7 userName q.1 q.2 inp) p).2 := by
  induction inputs with
  | nil =>
    intro p h
    simpa using h
  | cons a rest ih =>
    intro p h
    simp only [List.foldl_cons]
    exact ih (handleSendMessage o 7 userName p.1 p.2 a) (ReachableOk.step o 7 a p.1 p.2 ht h)

theorem runChat_reachableOk (o : Oracle) (ht : o.total) (userName : String)
    (inputs : List String) :
    ReachableOk userName (runChat o userName inputs).1 (runChat o userName inputs).2 := by
  unfold runChat
  exact reachableOk_foldl o ht userName inputs (initialChatState userName, []) ReachableOk.init

/-- C10 counterexample: a run in which one continue call fails (and the turn
is resent) persists a conversation with 12 messages — not 11 — containing two
consecutive user messages, so its message list does not strictly alternate
after the greeting. -/
theorem persisted_messages_not_alternating :
    ((getConversations (runChat onceFailOracle "A" ["a", "b", "c", "d", "e", "f"]).2 "A").map
      (fun c => c.messages.length) = [12]) ∧
    ((getConversations (runChat onceFailOracle "A" ["a", "b", "c", "d", "e", "f"]).2 "A").all
      (fun c => alternates Sender.ai c.messages) = false) := by
  exact ⟨by decide, by decide⟩

/-- C10 amended: in a failure-free session (every gateway call of every step
succeeds) every persisted conversation has exactly `2 * MAX_TURNS + 1 = 11`
messages: the AI greeting first, then strictly alternating user/ai pairs
ending in an ai message, with exactly `MAX_TURNS = 5` user messages and
`MAX_TURNS + 1 = 6` ai messages.  (A failed turn leaves an extra user message
in the history, as the counterexample shows.) -/
theorem reachableOk_persisted_shape (userName : String) (s : ChatState)
    (store : ConversationStore) (h : ReachableOk userName s store) :
    ∀ p ∈ store, ∀ c ∈ p.2,
      c.messages.length = 2 * MAX_TURNS + 1 ∧
      c.messages.head? = some (greetingMessage userName) ∧
      alternates Sender.ai c.messages = true ∧
      countSender Sender.user c.messages = MAX_TURNS ∧
      countSender Sender.ai c.messages = MAX_TURNS + 1 := by
  have hst := (reachableOk_inv userName s store h).2
  intro p hp c hc
  obtain ⟨ps, hm, hl⟩ := hst p hp c hc
  have hsingle : greetingMessage userName :: pairsToMsgs ps =
      [greetingMessage userName] ++ pairsToMsgs ps := rfl
  refine ⟨?_, ?_, ?_, ?_, ?_⟩
  · rw [hm, List.length_cons, pairsToMsgs_length, hl]
  · rw [hm]
    rfl
  · rw [hm]
    simp [alternates, greetingMessage, Sender.flip, alternates_pairsToMsgs]
  · rw [hm, hsingle, countSender_append, (countSender_greeting userName).1,
      (countSender_pairsToMsgs ps).1, hl]
    omega
  · rw [hm, hsingle, countSender_append, (countSender_greeting userName).2,
      (countSender_pairsToMsgs ps).2, hl]
    omega

/-- Witness for C10 amended: the conversation persisted by the failure-free
five-input run has 11 messages, starts with the greeting, alternates
strictly, and has 5 user and 6 ai messages. -/
theorem reachableOk_persisted_shape_witness :
    okRunConv.messages.length = 2 * MAX_TURNS + 1 ∧
    okRunConv.messages.head? = some (greetingMessage "A") ∧
    alternates Sender.ai okRunConv.messages = true ∧
    countSender Sender.user okRunConv.messages = MAX_TURNS ∧
    countSender Sender.ai okRunConv.messages = MAX_TURNS + 1 := by
  have h := reachableOk_persisted_shape "A" (runChat okOracle "A" ["a", "b", "c", "d", "e"]).1
    (runChat okOracle "A" ["a", "b", "c", "d", "e"]).2
    (runChat_reachableOk okOracle okOracle_total "A" ["a", "b", "c", "d", "e"])
  exact h ("A", getConversations (runChat okOracle "A" ["a", "b", "c", "d", "e"]).2 "A")
    (by decide) okRunConv (by decide)

/-! ### Dashboard lemmas -/

theorem latestConv_cons (c e : Conversation) (rest : List Conversation) :
    latestConv c (e :: rest) =
      latestConv (if c.timestamp < e.timestamp then e else c) rest := rfl

theorem latestConv_mem (cs : List Conversation) :
    ∀ c, latestConv c cs ∈ c :: cs := by
  induction cs with
  | nil =>
    intro c
    simp [latestConv]
  | cons e rest ih =>
    intro c
    rw [latestConv_cons]
    by_cases h : c.timestamp < e.timestamp
    · rw [if_pos h]
      rcases List.mem_cons.mp (ih e) with h2 | h2
      · rw [h2]
        simp
      · simp [h2]
    · rw [if_neg h]
      rcases List.mem_cons.mp (ih c) with h2 | h2
      · rw [h2]
        simp
      · simp [h2]

theorem latestConv_max (cs : List Conversation) :
    ∀ c, ∀ d ∈ c :: cs, d.timestamp ≤ (latestConv c cs).timestamp := by
  induction cs with
  | nil =>
    intro c d hd
    rw [List.mem_singleton.mp hd]
    exact le_refl _
  | cons e rest ih =>
    intro c d hd
    rw [latestConv_cons]
    have hstep : c.timestamp ≤ (if c.timestamp < e.timestamp then e else c).timestamp ∧
        e.timestamp ≤ (if c.timestamp < e.timestamp then e else c).timestamp := by
      by_cases h : c.timestamp < e.timestamp
      · rw [if_pos h]
        exact ⟨le_of_lt h, le_refl _⟩
      · rw [if_neg h]
        exact ⟨le_refl _, le_of_not_lt h⟩
    have hhead := ih (if c.timestamp < e.timestamp then e else c)
      (if c.timestamp < e.timestamp then e else c) (List.mem_cons_self _ _)
    rcases List.mem_cons.mp hd with h2 | h2
    · rw [h2]
      exact le_trans hstep.1 hhead
    · rcases List.mem_cons.mp h2 with h3 | h3
      · rw [h3]
        exact le_trans hstep.2 hhead
      · exact ih (if c.timestamp < e.timestamp then e else c) d (List.mem_cons_of_mem _ h3)


/-! ### Claim theorems: dashboard -/

/-- C6: for every account owning at least one conversation the dashboard
takes a maximal-timestamp conversation of that account (the first such, per
the stable descending sort), classifies its summary mood, and places the
student exactly in the returned quadrant's bucket — in no other; an account
whose store entry is empty or absent appears in no bucket. -/
theorem dashboard_buckets (classify : String → MoodMeterQuadrant) (store : ConversationStore)
    (name name2 : String) (convs : List Conversation) (c : Conversation)
    (cs : List Conversation) (hnodup : (store.map Prod.fst).Nodup) :
    ((name, convs) ∈ store → convs = c :: cs →
      (latestConv c cs ∈ convs ∧
       (∀ d ∈ convs, d.timestamp ≤ (latestConv c cs).timestamp) ∧
       ({ name := name, mood := (latestConv c cs).summary.mood,
          quadrant := classify (latestConv c cs).summary.mood,
          timestamp := (latestConv c cs).timestamp } : StudentMood) ∈
         moodsByQuadrant (fetchMoods classify store)
           (classify (latestConv c cs).summary.mood) ∧
       (∀ q, q ≠ classify (latestConv c cs).summary.mood →
         ∀ m ∈ moodsByQuadrant (fetchMoods classify store) q, m.name ≠ name))) ∧
    ((∀ convs2, (name2, convs2) ∈ store → convs2 = []) →
      ∀ q, ∀ m ∈ moodsByQuadrant (fetchMoods classify store) q, m.name ≠ name2) := by
  constructor
  · intro hmem hconvs
    subst hconvs
    refine ⟨latestConv_mem cs c, latestConv_max cs c, ?_, ?_⟩
    · refine List.mem_filter.mpr ⟨?_, ?_⟩
      · refine List.mem_filterMap.mpr ⟨(name, c :: cs), hmem, ?_⟩
        rfl
      · simp
    · intro q hq m hm heqname
      obtain ⟨hm1, hm2⟩ := List.mem_filter.mp hm
      rw [fetchMoods] at hm1
      obtain ⟨p, hp, hfp⟩ := List.mem_filterMap.mp hm1
      obtain ⟨pn, pconvs⟩ := p
      cases pconvs with
      | nil => cases hfp
      | cons c2 cs2 =>
        have hm3 : m = { name := pn,
                         mood := (latestConv c2 cs2).summary.mood,
                         quadrant := classify (latestConv c2 cs2).summary.mood,
                         timestamp := (latestConv c2 cs2).timestamp } :=
          (Option.some.inj hfp).symm
        have hpn : pn = name := by
          rw [← heqname, hm3]
        have hpeq : (pn, c2 :: cs2) = (name, c :: cs) := by
          apply List.inj_on_of_nodup_map hnodup hp hmem
          rw [hpn]
        have hc2 : c2 = c ∧ cs2 = cs := by
          have h2 := (Prod.mk.injEq pn (c2 :: cs2) name (c :: cs)).mp hpeq
          exact ⟨(List.cons.injEq .. ).mp h2.2 |>.1, (List.cons.injEq .. ).mp h2.2 |>.2⟩
        have hmq : m.quadrant = classify (latestConv c cs).summary.mood := by
          rw [hm3, hc2.1, hc2.2]
        have : m.quadrant = q := by
          simpa using hm2
        exact hq (by rw [← this, hmq])
  · intro hempty q m hm heqname
    obtain ⟨hm1, hm2⟩ := List.mem_filter.mp hm
    rw [fetchMoods] at hm1
    obtain ⟨p, hp, hfp⟩ := List.mem_filterMap.mp hm1
    obtain ⟨pn, pconvs⟩ := p
    cases pconvs with
    | nil => cases hfp
    | cons c2 cs2 =>
      have hm3 : m = { name := pn,
                       mood := (latestConv c2 cs2).summary.mood,
                       quadrant := classify (latestConv c2 cs2).summary.mood,
                       timestamp := (latestConv c2 cs2).timestamp } :=
        (Option.some.inj hfp).symm
      have hpn : pn = name2 := by
        rw [← heqname, hm3]
      rw [hpn] at hp
      cases hempty (c2 :: cs2) hp

/-- Witness for C6: with two students where only "student1" has a (RED
classified) conversation, the RED bucket contains exactly "student1" and all
other buckets are empty, so "student2" appears nowhere. -/
theorem dashboard_buckets_witness :
    ({ name := "student1", mood := "화남", quadrant := MoodMeterQuadrant.RED,
       timestamp := 3 } : StudentMood) ∈
      moodsByQuadrant (fetchMoods classifyRed demoStore) MoodMeterQuadrant.RED ∧
    moodsByQuadrant (fetchMoods classifyRed demoStore) MoodMeterQuadrant.RED =
      [{ name := "student1", mood := "화남", quadrant := MoodMeterQuadrant.RED,
         timestamp := 3 }] ∧
    moodsByQuadrant (fetchMoods classifyRed demoStore) MoodMeterQuadrant.YELLOW = [] ∧
    moodsByQuadrant (fetchMoods classifyRed demoStore) MoodMeterQuadrant.BLUE = [] ∧
    moodsByQuadrant (fetchMoods classifyRed demoStore) MoodMeterQuadrant.GREEN = [] := by
  refine ⟨?_, by decide, by decide, by decide, by decide⟩
  have h := (dashboard_buckets classifyRed demoStore "student1" "student2" [demoConv]
    demoConv [] (by decide)).1 (by decide) rfl
  exact h.2.2.1
